import Mathlib

/-!
Verification development for the unity-action repository.

The TypeScript sources are shallowly embedded below:
* src/unnamed/part_000 (the current unity.ts): ExecUnity, exec with its
  process-lock handling, and the log tailer tailLog;
* src/src/index.ts (second document, the legacy unity.ts): ExecUnity with the
  flaky-crash classification and the bounded retry via tryCount, and the
  legacy getLogFilePath / tryKillPid;
* src/unnamed/part_001 (second document, utils.ts): getArgumentValue,
  listProcesses, cleanupProcessOrphans and the current tryKillPid.

JavaScript string primitives used by the sources (trim, toLowerCase,
includes, split, indexOf, Number) are modelled as executable functions on
List Char / String, faithful to their ECMAScript behaviour on the inputs the
program feeds them.
-/

/-- Model of the character class matched by JavaScript trim / the \s regex
class for the characters that actually occur in the program's data. -/
def jsWhitespace (c : Char) : Bool :=
  c = ' ' || c = '\t' || c = '\n' || c = '\r' || c = '\x0b' || c = '\x0c'

/-- JavaScript String.prototype.trim on the underlying character list:
drop whitespace from both ends. -/
def jsTrimList (l : List Char) : List Char :=
  ((l.dropWhile jsWhitespace).reverse.dropWhile jsWhitespace).reverse

/-- JavaScript String.prototype.trim. -/
def jsTrim (s : String) : String :=
  String.mk (jsTrimList s.data)

/-- JavaScript String.prototype.toLowerCase, restricted to the ASCII range
that the fingerprints and the system-process deny list use. -/
def jsToLower (s : String) : String :=
  String.mk (s.data.map Char.toLower)

/-- Does the character list seg occur contiguously inside l?  Model of the
containment test underlying JavaScript String.prototype.includes. -/
def listContainsSeg (seg : List Char) : List Char → Bool
  | [] => seg.isEmpty
  | c :: rest => seg.isPrefixOf (c :: rest) || listContainsSeg seg rest

/-- JavaScript s.includes(t): t occurs as a contiguous substring of s. -/
def jsIncludes (s t : String) : Bool :=
  listContainsSeg t.data s.data

/-- JavaScript Array.prototype.indexOf: index of the first occurrence of
value, or -1 when absent. -/
def jsIndexOf (value : String) : List String → Int
  | [] => -1
  | a :: rest =>
    if a = value then 0
    else
      let r := jsIndexOf value rest
      if r = -1 then -1 else r + 1

/-!
Section: Log tailer (src/unnamed/part_000, tailLog, lines 120-142)

The tailer keeps a cursor lastSize and an output stream.  Each poll cycle
stats the log file; when the size grew it reads exactly the byte range
[lastSize, size) and appends it to the output, then advances the cursor.  A
stat or read error is swallowed and the cycle is skipped.  A poll cycle is
modelled by the file content observed at that cycle (a byte list), or none
when the cycle raised.  Bytes are modelled as Nat.
-/

/-- The tailer state: the cursor lastSize and the bytes written to the
caller's output so far, in order. -/
structure TailState where
  lastSize : Nat
  out : List Nat
deriving DecidableEq, Repr

/-- One successful poll cycle of tailLog observing the file content file:
if the size grew past the cursor, read exactly the new byte range
[lastSize, file.length) and emit it, then advance the cursor. -/
def pollStep (file : List Nat) (s : TailState) : TailState :=
  if s.lastSize < file.length then
    { lastSize := file.length
      out := s.out ++ List.take (file.length - s.lastSize) (List.drop s.lastSize file) }
  else s

/-- One iteration of the tailLog loop: a cycle that raised (none) leaves the
state unchanged, per the catch block that ignores read errors. -/
def tailStep (s : TailState) : Option (List Nat) → TailState
  | none => s
  | some file => pollStep file s

/-- The tailLog loop run over a finite schedule of poll observations. -/
def tailRun (obss : List (Option (List Nat))) (s : TailState) : TailState :=
  obss.foldl tailStep s

/-- The tailer invariant: the emitted output is exactly the consumed prefix
of the observed file, and the cursor never passes the end of the file. -/
def TailInv (file : List Nat) (s : TailState) : Prop :=
  s.out = List.take s.lastSize file ∧ s.lastSize ≤ file.length

/-!
Section: Exit classification and bounded retry
(src/src/index.ts, second document: the legacy unity.ts, lines 24-96)

Each launch attempt is summarised by the exit code reported by exec and the
raw stderr line payloads delivered to the errline listener.  The listener
trims each payload, streams it via core.info when non-empty, and sets the
flaky flag when the streamed line includes one of the two fixed fingerprint
substrings.  After the process ends (and when not cancelled) the code checks
flaky first - retrying while tryCount <= 25 - and only then the exit code.
-/

/-- First flaky-crash fingerprint substring (overflow fault). -/
def overflowFingerprint : String :=
  "Unhandled Exception: System.OverflowException: Number overflow."

/-- Second flaky-crash fingerprint substring (out-of-memory fault). -/
def oomFingerprint : String :=
  "Unhandled Exception: System.OutOfMemoryException: Out of memory"

/-- Does a line include one of the two fingerprints? -/
def containsFingerprint (line : String) : Bool :=
  jsIncludes line overflowFingerprint || jsIncludes line oomFingerprint

/-- The lines actually streamed by the errline listener: each raw payload
trimmed, empty results dropped. -/
def streamedLines (raw : List String) : List String :=
  (raw.map jsTrim).filter (fun l => l != "")

/-- The final value of the flaky flag after the errline listener has
processed every raw payload. -/
def flakyOf (raw : List String) : Bool :=
  raw.any (fun d => (jsTrim d != "") && containsFingerprint (jsTrim d))

/-- One launch attempt as observed by ExecUnity: the exit code and the raw
stderr payloads. -/
structure Attempt where
  exitCode : Int
  errLines : List String

/-- The per-attempt exit classification carried out at lines 81-94 of the
legacy unity.ts: the flaky flag is consulted first, then the exit code. -/
inductive ExitOutcome where
  | clean
  | failed (code : Int)
  | flakyCrash
deriving DecidableEq, Repr

def classifyAttempt (a : Attempt) : ExitOutcome :=
  if flakyOf a.errLines then ExitOutcome.flakyCrash
  else if a.exitCode ≠ 0 then ExitOutcome.failed a.exitCode
  else ExitOutcome.clean

/-- The final result of the legacy ExecUnity, together with how the run
ended. -/
inductive RunResult where
  | success
  | flakyTooMany
  | failedExit (code : Int)
deriving DecidableEq, Repr

/-- The legacy ExecUnity retry loop.  outs n is the attempt performed by the
launch whose tryCount parameter is n; the run starts at tryCount = 1.  The
second component counts how many launches were performed.  Mirrors:
if (flaky) { if (tryCount <= 25) { tryCount++; recurse } else throw }
if (exitCode !== 0) throw. -/
def ExecUnityRetry (outs : Nat → Attempt) (tryCount : Nat) : RunResult × Nat :=
  match classifyAttempt (outs tryCount) with
  | ExitOutcome.flakyCrash =>
    if _h : tryCount ≤ 25 then
      let r := ExecUnityRetry outs (tryCount + 1)
      (r.1, r.2 + 1)
    else (RunResult.flakyTooMany, 1)
  | ExitOutcome.failed c => (RunResult.failedExit c, 1)
  | ExitOutcome.clean => (RunResult.success, 1)
termination_by 26 - tryCount
decreasing_by omega

/-- A run in which every launch crashes in the flaky way. -/
def allFlakyAttempts : Nat → Attempt :=
  fun _ => { exitCode := 1, errLines := [oomFingerprint] }

/-- A run whose first launch exits 0 while streaming a fingerprint line and
whose later launches are fully clean. -/
def cleanFlakyLineAttempts : Nat → Attempt :=
  fun n =>
    if n = 1 then { exitCode := 0, errLines := [oomFingerprint] }
    else { exitCode := 0, errLines := [] }

/-- A run whose launches exit nonzero while streaming the overflow
fingerprint. -/
def overflowLineAttempts : Nat → Attempt :=
  fun _ => { exitCode := 7, errLines := [overflowFingerprint] }

/-- A run whose launches exit nonzero with unremarkable stderr output. -/
def plainFailureAttempts : Nat → Attempt :=
  fun _ => { exitCode := 3, errLines := ["Some other error"] }

/-- A run whose launches exit 0 with unremarkable stderr output. -/
def cleanRunAttempts : Nat → Attempt :=
  fun _ => { exitCode := 0, errLines := ["All good"] }

/-!
Section: Process lock (src/unnamed/part_001, tryKillPid, lines 287-314;
src/unnamed/part_000, ExecUnity lines 21-55 and exec lines 97-113)

The lock file holds the decimal text of one PID; its content is modelled as
the recorded Nat (none when the file does not exist).  A process.kill call
is summarised by its outcome; open failures of the lock file are a separate
input.  Unlinking an existing open file succeeds in this filesystem model.
-/

/-- Outcome of a process.kill call, by errno class. -/
inductive KillOutcome where
  | ok
  | esrch
  | enoent
  | other
deriving DecidableEq, Repr

/-- What one tryKillPid invocation did: the value it returned, the lock file
content afterwards, and whether a visible error was reported via core.error. -/
structure TryKillResult where
  ret : Option Nat
  fsAfter : Option Nat
  visibleError : Bool
deriving DecidableEq, Repr

/-- The current tryKillPid (utils.ts lines 287-314).  When no lock file
exists it returns null.  Otherwise it opens the file (openOk false models an
open that raised and fell to the outer swallowed catch, leaving the file in
place), reads the PID, attempts the kill, logs via core.error only when the
kill error is neither ENOENT nor ESRCH, and in the finally block closes and
unlinks the file; the recorded PID is returned even when the kill failed. -/
def tryKillPid (content : Option Nat) (openOk : Bool)
    (kill : Nat → KillOutcome) : TryKillResult :=
  match content with
  | none => { ret := none, fsAfter := none, visibleError := false }
  | some pid =>
    if openOk then
      { ret := some pid
        fsAfter := none
        visibleError := kill pid = KillOutcome.other }
    else { ret := none, fsAfter := some pid, visibleError := false }

/-!
Section: Cancellation in the current ExecUnity (src/unnamed/part_000, lines 21-55)

The run is summarised by: whether a SIGINT/SIGTERM handler ran to completion
before the finally block (the handler calls tryKillPid on the lock and then
sets isCancelled), the result of exec (an exit code, or a thrown error which
the catch turns into exit code 1), the lock file content at kill time, and
the kill behaviour.  The finally block acts only when not cancelled: it
calls tryKillPid again, reaps orphans, and throws on a nonzero exit code.
-/

/-- What a whole ExecUnity call produced: the error it threw (none when it
returned normally) and the lock file content afterwards. -/
structure ExecUnityResult where
  thrown : Option String
  lockAfter : Option Nat
deriving DecidableEq, Repr

/-- The current ExecUnity control flow around cancellation and the final
exit-code check. -/
def ExecUnity (cancelled : Bool) (execRes : Except String Int)
    (lock : Option Nat) (openOk : Bool) (kill : Nat → KillOutcome) :
    ExecUnityResult :=
  let exitCode : Int :=
    match execRes with
    | Except.ok c => c
    | Except.error _ => 1
  if cancelled then
    let tk := tryKillPid lock openOk kill
    { thrown := none, lockAfter := tk.fsAfter }
  else
    let tk := tryKillPid lock openOk kill
    if exitCode ≠ 0 then
      { thrown := some ("Unity failed with exit code " ++ toString exitCode)
        lockAfter := tk.fsAfter }
    else { thrown := none, lockAfter := tk.fsAfter }

/-!
Section: Lock handling inside exec (src/unnamed/part_000, lines 97-113)

After the spawn returns the new PID, exec ensures the lock directory
exists.  When the directory already existed it probes the lock file for
read-write access; on success it calls tryKillPid on the stale lock, then
unconditionally writes the new PID to the lock file.  The filesystem state
is: none when the lock directory is missing, some none when the directory
exists without a lock file, some (some p) when a lock file records p.
-/

/-- Observable events of the lock phase, in order. -/
inductive ExecEvent where
  | killStale (pid : Nat)
  | writeLock (pid : Nat)
deriving DecidableEq, Repr

/-- The lock-file segment of exec, yielding the ordered events and the final
filesystem state. -/
def execLockPhase (dirState : Option (Option Nat)) (accessOk openOk : Bool)
    (kill : Nat → KillOutcome) (newPid : Nat) :
    List ExecEvent × Option (Option Nat) :=
  match dirState with
  | none =>
    ([ExecEvent.writeLock newPid], some (some newPid))
  | some none =>
    ([ExecEvent.writeLock newPid], some (some newPid))
  | some (some stale) =>
    if accessOk then
      let tk := tryKillPid (some stale) openOk kill
      ((match tk.ret with
        | some killed => [ExecEvent.killStale killed]
        | none => []) ++ [ExecEvent.writeLock newPid],
        some (some newPid))
    else ([ExecEvent.writeLock newPid], some (some newPid))

/-!
Section: Argument lookup (src/unnamed/part_001, getArgumentValue lines 187-193)
and the start of exec (src/unnamed/part_000, lines 57-61): the log path is
resolved and validated before spawn is reached, so a missing -logFile
argument raises before any external process is created.
-/

/-- getArgumentValue from utils.ts: first index of the flag via indexOf with
its -1 sentinel; the flag missing, or sitting in the last position with no
following value, raises; otherwise the following element is returned. -/
def getArgumentValue (value : String) (args : List String) :
    Except String String :=
  let index := jsIndexOf value args
  if index = -1 ∨ index = (args.length : Int) - 1 then
    Except.error ("Missing " ++ value ++ " argument")
  else Except.ok (args.getD (index.toNat + 1) "")

/-- The prefix of exec that runs before spawn: resolve the -logFile value
and reject an empty one.  An ok result carries the log path with which the
subsequent spawn and tailing proceed; an error means exec raised before any
process was created. -/
def execStart (args : List String) : Except String String :=
  match getArgumentValue "-logFile" args with
  | Except.error e => Except.error e
  | Except.ok logPath =>
    if logPath = "" then
      Except.error "Log file path not specified in command arguments"
    else Except.ok logPath

/-!
Section: Process enumeration and orphan reaping
(src/unnamed/part_001, listProcesses lines 198-251 and
cleanupProcessOrphans lines 256-281)

listProcesses runs the platform enumeration command (its result is an
Except: the promise either resolves with stdout or rejects), splits the
output into lines, parses each line - skipping lines the pattern does not
match - and drops entries whose name matches the system deny list
case-insensitively; the whole body is wrapped in a catch that logs and
returns the empty list.  cleanupProcessOrphans then kills every listed
process whose ppid equals the exited parent's pid, each kill wrapped in its
own catch (ESRCH at debug level, anything else logged as an error).
-/

/-- The fixed deny list of system process names. -/
def systemProcessNames : List String :=
  ["System", "Idle", "Spotlight", "svchost.exe", "explorer.exe",
   "services.exe", "wininit.exe", "winlogon.exe", "lsass.exe", "csrss.exe",
   "smss.exe", "init", "kthreadd", "kworker", "systemd", "launchd",
   "kernel_task", "Finder", "Dock", "WindowServer", "logd", "securityd",
   "notifyd", "unattended-upgrades", "cron", "atd", "dbus-daemon"]

/-- The filterSystem closure of listProcesses: keep a process iff its name
(when truthy, i.e. non-empty) does not contain any deny-listed name as a
case-insensitive substring. -/
def filterSystem (name : String) : Bool :=
  !(systemProcessNames.any (fun sysName =>
    (name != "") && jsIncludes (jsToLower name) (jsToLower sysName)))

/-- One enumerated process record. -/
structure ProcInfo where
  pid : Nat
  ppid : Nat
  name : String
deriving DecidableEq, Repr

/-- Split on the \r?\n separator: split at every newline, removing one
carriage return directly before it; a trailing carriage return not followed
by a newline is kept, as in JavaScript split. -/
def splitLinesAux : List Char → List Char → List (List Char)
  | [], acc => [acc.reverse]
  | '\n' :: rest, acc =>
    (match acc with
     | '\r' :: a => a.reverse
     | _ => acc.reverse) :: splitLinesAux rest []
  | c :: rest, acc => splitLinesAux rest (c :: acc)

def splitLinesCr (s : String) : List (List Char) :=
  splitLinesAux s.data []

/-- JavaScript split on a comma. -/
def splitCommasAux : List Char → List Char → List (List Char)
  | [], acc => [acc.reverse]
  | ',' :: rest, acc => acc.reverse :: splitCommasAux rest []
  | c :: rest, acc => splitCommasAux rest (c :: acc)

def splitCommas (l : List Char) : List (List Char) :=
  splitCommasAux l []

/-- Decimal value of a digit string. -/
def natOfDigits (l : List Char) : Nat :=
  l.foldl (fun n c => n * 10 + (c.toNat - 48)) 0

/-- ECMAScript ToNumber restricted to the shapes the process list feeds it:
the whitespace-trimmed empty string converts to 0 and an unsigned decimal
string to its value; every other shape is treated as NaN (none), which is
all the isNaN guards of the win32 branch distinguish for PID columns. -/
def jsToNumber? (l : List Char) : Option Nat :=
  let t := jsTrimList l
  if t.isEmpty then some 0
  else if t.all Char.isDigit then some (natOfDigits t) else none

/-- The regex match of the unix branch applied to one raw line:
line.trim().match(^ digits, whitespace, digits, whitespace, rest $),
yielding pid, ppid and the name capture. -/
def parsePsLine (line : List Char) : Option ProcInfo :=
  let cs := jsTrimList line
  let d1 := cs.takeWhile Char.isDigit
  let r1 := cs.dropWhile Char.isDigit
  let r2 := r1.dropWhile jsWhitespace
  let d2 := r2.takeWhile Char.isDigit
  let r3 := r2.dropWhile Char.isDigit
  let rest := r3.dropWhile jsWhitespace
  if d1.isEmpty || (r1.takeWhile jsWhitespace).isEmpty || d2.isEmpty
      || (r3.takeWhile jsWhitespace).isEmpty then
    none
  else some { pid := natOfDigits d1, ppid := natOfDigits d2
              name := String.mk rest }

/-- The records of the unix enumeration before the system-name filter:
stdout split into lines, the header dropped, blank lines dropped, each
remaining line parsed, unparseable lines skipped. -/
def parsePsRecords (stdout : String) : List ProcInfo :=
  (((splitLinesCr stdout).drop 1).filter
    (fun l => !(jsTrimList l).isEmpty)).filterMap parsePsLine

/-- The unix branch of listProcesses: parse each line and keep the record
when filterSystem accepts its name, in one pass as in the source loop. -/
def listProcessesUnixBody (stdout : String) : List ProcInfo :=
  (((splitLinesCr stdout).drop 1).filter
    (fun l => !(jsTrimList l).isEmpty)).filterMap
    (fun l =>
      match parsePsLine l with
      | some p => if filterSystem p.name then some p else none
      | none => none)

/-- The win32 branch of listProcesses: CSV lines, blank lines dropped, then
the header dropped; a line yields a record when it has at least three
fields and the two PID columns pass the isNaN guards. -/
def listProcessesWinBody (stdout : String) : List ProcInfo :=
  (((splitLinesCr stdout).filter
    (fun l => !(jsTrimList l).isEmpty)).drop 1).filterMap
    (fun line =>
      let parts := splitCommas line
      if 3 ≤ parts.length then
        match jsToNumber? (parts.getD 0 []), jsToNumber? (parts.getD 1 []) with
        | some pid, some ppid =>
          let procName := String.mk (parts.getD 2 [])
          if filterSystem procName then
            some { name := procName, pid := pid, ppid := ppid }
          else none
        | _, _ => none
      else none)

/-- The whole listProcesses: the try body (the enumeration command may
reject, parsing is total) wrapped in the catch that logs and returns []. -/
def listProcessesE (isWin32 : Bool) (cmdResult : Except String String) :
    Except String (List ProcInfo) :=
  match (match cmdResult with
    | Except.ok stdout =>
      (Except.ok (if isWin32 then listProcessesWinBody stdout
        else listProcessesUnixBody stdout) : Except String (List ProcInfo))
    | Except.error e => Except.error e) with
  | Except.ok procs => Except.ok procs
  | Except.error _ => Except.ok []

/-- What the per-process catch of cleanupProcessOrphans logged. -/
inductive ReapLog where
  | killedInfo (pid : Nat)
  | alreadyExitedDebug (pid : Nat)
  | errorLogged (pid : Nat)
deriving DecidableEq, Repr

/-- One kill attempt of the reap loop with its catch: success logs at info,
ESRCH at debug, any other failure as an error; nothing escapes. -/
def reapOne (kill : Nat → KillOutcome) (p : ProcInfo) :
    Except KillOutcome ReapLog :=
  match kill p.pid with
  | KillOutcome.ok => Except.ok (ReapLog.killedInfo p.pid)
  | KillOutcome.esrch => Except.ok (ReapLog.alreadyExitedDebug p.pid)
  | KillOutcome.enoent => Except.ok (ReapLog.errorLogged p.pid)
  | KillOutcome.other => Except.ok (ReapLog.errorLogged p.pid)

/-- The log entry reapOne produces. -/
def reapLogOf (kill : Nat → KillOutcome) (p : ProcInfo) : ReapLog :=
  match kill p.pid with
  | KillOutcome.ok => ReapLog.killedInfo p.pid
  | KillOutcome.esrch => ReapLog.alreadyExitedDebug p.pid
  | KillOutcome.enoent => ReapLog.errorLogged p.pid
  | KillOutcome.other => ReapLog.errorLogged p.pid

/-- The for loop of cleanupProcessOrphans: visit every enumerated process,
and for those whose ppid equals the exited parent's pid attempt the kill
through reapOne; an uncaught exception would propagate as an error. -/
def cleanupLoop (kill : Nat → KillOutcome) (parentPid : Nat) :
    List ProcInfo → Except KillOutcome (List ReapLog)
  | [] => Except.ok []
  | p :: rest =>
    if p.ppid == parentPid then
      match reapOne kill p with
      | Except.ok log =>
        match cleanupLoop kill parentPid rest with
        | Except.ok logs => Except.ok (log :: logs)
        | Except.error e => Except.error e
      | Except.error e => Except.error e
    else cleanupLoop kill parentPid rest

def cleanupProcessOrphans (parent : ProcInfo) (procs : List ProcInfo)
    (kill : Nat → KillOutcome) : Except KillOutcome (List ReapLog) :=
  cleanupLoop kill parent.pid procs

/-- The processes to which the reap loop sends a kill. -/
def cleanupTargets (parent : ProcInfo) (procs : List ProcInfo) :
    List ProcInfo :=
  procs.filter (fun p => p.ppid == parent.pid)

/-!
Section: Theorems
-/

theorem pollStep_inv {file : List Nat} {s : TailState} (h : TailInv file s) :
    (pollStep file s).out = file ∧ (pollStep file s).lastSize = file.length := by
  obtain ⟨hout, hle⟩ := h
  by_cases hlt : s.lastSize < file.length
  · have hstep : pollStep file s =
        { lastSize := file.length
          out := s.out ++ List.take (file.length - s.lastSize) (List.drop s.lastSize file) } := by
      unfold pollStep; rw [if_pos hlt]
    rw [hstep]
    refine ⟨?_, rfl⟩
    show s.out ++ List.take (file.length - s.lastSize) (List.drop s.lastSize file) = file
    have hdrop : List.take (file.length - s.lastSize) (List.drop s.lastSize file)
        = List.drop s.lastSize file := by
      rw [← List.length_drop s.lastSize file]; exact List.take_length _
    rw [hout, hdrop]
    exact List.take_append_drop _ _
  · have heq : s.lastSize = file.length := le_antisymm hle (not_lt.mp hlt)
    have hstep : pollStep file s = s := by
      unfold pollStep; rw [if_neg hlt]
    rw [hstep]
    exact ⟨by rw [hout, heq, List.take_length], heq⟩

theorem tailInv_mono {f f' : List Nat} {s : TailState} (h : TailInv f s)
    (hpre : f <+: f') : TailInv f' s := by
  obtain ⟨hout, hle⟩ := h
  constructor
  · rw [hout, List.prefix_iff_eq_take.mp hpre, List.take_take,
      min_eq_left hle]
  · exact le_trans hle hpre.length_le

theorem pollStep_inv' {file : List Nat} {s : TailState} (h : TailInv file s) :
    TailInv file (pollStep file s) := by
  obtain ⟨h1, h2⟩ := pollStep_inv h
  exact ⟨by rw [h1, h2, List.take_length], by rw [h2]⟩

/-- Main tailer lemma: starting from a state satisfying the invariant for
the snapshot f, and observing an append-only schedule (successive successful
snapshots extend each other, f being a prefix of the first), the run ends
with output equal to the last successful snapshot, fully consumed. -/
theorem tailRun_aux (obss : List (Option (List Nat))) :
    ∀ (f : List Nat) (s : TailState), TailInv f s →
    List.Chain' (· <+: ·) (f :: obss.filterMap id) →
    (obss.filterMap id = [] → tailRun obss s = s) ∧
    (∀ g, (obss.filterMap id).getLast? = some g →
      (tailRun obss s).out = g ∧ (tailRun obss s).lastSize = g.length) := by
  induction obss with
  | nil =>
    intro f s hinv _
    exact ⟨fun _ => rfl, fun g hg => by simp at hg⟩
  | cons o rest ih =>
    intro f s hinv hchain
    cases o with
    | none =>
      have : (none :: rest).filterMap (id : Option (List Nat) → Option (List Nat))
          = rest.filterMap id := by simp
      rw [this] at hchain ⊢
      have hrun : tailRun (none :: rest) s = tailRun rest s := rfl
      rw [hrun]
      exact ih f s hinv hchain
    | some g =>
      have hfm : (some g :: rest).filterMap (id : Option (List Nat) → Option (List Nat))
          = g :: rest.filterMap id := by simp
      rw [hfm] at hchain ⊢
      have hfg : f <+: g := (List.chain'_cons'.mp hchain).1 g rfl
      have hchain' : List.Chain' (· <+: ·) (g :: rest.filterMap id) :=
        (List.chain'_cons'.mp hchain).2
      have hinvg : TailInv g s := tailInv_mono hinv hfg
      have hfull := pollStep_inv hinvg
      have hinv' : TailInv g (pollStep g s) := pollStep_inv' hinvg
      have hrun : tailRun (some g :: rest) s = tailRun rest (pollStep g s) := rfl
      rw [hrun]
      have hih := ih g (pollStep g s) hinv' hchain'
      constructor
      · intro habs; exact absurd habs (by simp)
      · intro G hG
        cases hrest : rest.filterMap (id : Option (List Nat) → Option (List Nat)) with
        | nil =>
          rw [hrest] at hG
          have : G = g := by
            simp [List.getLast?] at hG
            exact hG.symm
          rw [this, hih.1 hrest]
          exact hfull
        | cons x xs =>
          rw [hrest] at hG
          have hG' : (rest.filterMap id).getLast? = some G := by
            rw [hrest]
            rw [List.getLast?_cons_cons] at hG
            simpa using hG
          exact hih.2 G hG'

theorem tailStep_lastSize_le (s : TailState) (o : Option (List Nat)) :
    s.lastSize ≤ (tailStep s o).lastSize := by
  cases o with
  | none => exact le_refl _
  | some f =>
    show s.lastSize ≤ (pollStep f s).lastSize
    by_cases h : s.lastSize < f.length
    · have hstep : pollStep f s =
          { lastSize := f.length
            out := s.out ++ List.take (f.length - s.lastSize) (List.drop s.lastSize f) } := by
        unfold pollStep; rw [if_pos h]
      rw [hstep]
      exact le_of_lt h
    · have hstep : pollStep f s = s := by
        unfold pollStep; rw [if_neg h]
      rw [hstep]

theorem tailRun_lastSize_le (obss : List (Option (List Nat))) :
    ∀ s : TailState, s.lastSize ≤ (tailRun obss s).lastSize := by
  induction obss with
  | nil => intro s; exact le_refl _
  | cons o rest ih =>
    intro s
    have h1 : s.lastSize ≤ (tailStep s o).lastSize := tailStep_lastSize_le s o
    have h2 : (tailStep s o).lastSize ≤ (tailRun rest (tailStep s o)).lastSize := ih _
    exact le_trans h1 h2

/-- C1: for every append-only schedule of poll observations (each successful
snapshot extends the previous one), the tailer writes each appended byte to
the output exactly once and in file-offset order: the concatenation of all
emitted chunks equals the last observed file content, and the cursor
lastSize is monotonically non-decreasing across the run. -/
theorem tailLog_exact_once_in_order (obss : List (Option (List Nat))) (F : List Nat)
    (hchain : List.Chain' (· <+: ·) (obss.filterMap id))
    (hlast : (obss.filterMap id).getLast? = some F) :
    (tailRun obss ⟨0, []⟩).out = F ∧
    ∀ pre suff, obss = pre ++ suff →
      (tailRun pre ⟨0, []⟩).lastSize ≤ (tailRun obss ⟨0, []⟩).lastSize := by
  have hinv0 : TailInv [] ⟨0, []⟩ := ⟨rfl, le_refl _⟩
  have hchain0 : List.Chain' (· <+: ·) ([] :: obss.filterMap id) := by
    rw [List.chain'_cons']
    exact ⟨fun y _ => List.nil_prefix, hchain⟩
  have hmain := tailRun_aux obss [] ⟨0, []⟩ hinv0 hchain0
  refine ⟨(hmain.2 F hlast).1, ?_⟩
  intro pre suff hsplit
  rw [hsplit]
  unfold tailRun
  rw [List.foldl_append]
  exact tailRun_lastSize_le suff _

/-- Concrete run exercising C1: two snapshots of a growing file with one
failed poll in between. -/
theorem tailLog_exact_once_in_order_witness :
    (tailRun [some [7], none, some [7, 8, 9]] ⟨0, []⟩).out = [7, 8, 9] ∧
    ∀ pre suff, ([some [7], none, some [7, 8, 9]] :
        List (Option (List Nat))) = pre ++ suff →
      (tailRun pre ⟨0, []⟩).lastSize ≤
        (tailRun [some [7], none, some [7, 8, 9]] ⟨0, []⟩).lastSize :=
  tailLog_exact_once_in_order [some [7], none, some [7, 8, 9]] [7, 8, 9]
    (by
      rw [show List.filterMap (id : Option (List Nat) → Option (List Nat))
          [some [7], none, some [7, 8, 9]] = [[7], [7, 8, 9]] from rfl]
      exact List.chain'_pair.mpr ⟨[8, 9], rfl⟩)
    rfl

theorem flakyOf_eq_any (raw : List String) :
    flakyOf raw = (streamedLines raw).any containsFingerprint := by
  induction raw with
  | nil => rfl
  | cons d rest ih =>
    unfold flakyOf streamedLines at ih ⊢
    rw [List.any_cons, List.map_cons, List.filter_cons]
    cases h : (jsTrim d != "") with
    | false => rw [ih]; simp [h]
    | true => rw [ih]; simp [h, List.any_cons]

theorem ExecUnityRetry_clean (outs : Nat → Attempt) (t : Nat)
    (h : classifyAttempt (outs t) = ExitOutcome.clean) :
    ExecUnityRetry outs t = (RunResult.success, 1) := by
  rw [ExecUnityRetry, h]

theorem ExecUnityRetry_failed (outs : Nat → Attempt) (t : Nat) (c : Int)
    (h : classifyAttempt (outs t) = ExitOutcome.failed c) :
    ExecUnityRetry outs t = (RunResult.failedExit c, 1) := by
  rw [ExecUnityRetry, h]

theorem ExecUnityRetry_flaky_retry (outs : Nat → Attempt) (t : Nat)
    (h : classifyAttempt (outs t) = ExitOutcome.flakyCrash) (hle : t ≤ 25) :
    ExecUnityRetry outs t
      = ((ExecUnityRetry outs (t + 1)).1, (ExecUnityRetry outs (t + 1)).2 + 1) := by
  rw [ExecUnityRetry, h]
  rw [dif_pos hle]

theorem ExecUnityRetry_flaky_stop (outs : Nat → Attempt) (t : Nat)
    (h : classifyAttempt (outs t) = ExitOutcome.flakyCrash) (hgt : ¬ t ≤ 25) :
    ExecUnityRetry outs t = (RunResult.flakyTooMany, 1) := by
  rw [ExecUnityRetry, h]
  rw [dif_neg hgt]

theorem ExecUnityRetry_allFlaky (outs : Nat → Attempt)
    (h : ∀ n, classifyAttempt (outs n) = ExitOutcome.flakyCrash) :
    ∀ k t, 26 - t = k → t ≤ 26 →
      ExecUnityRetry outs t = (RunResult.flakyTooMany, k + 1) := by
  intro k
  induction k with
  | zero =>
    intro t hk ht
    have ht26 : t = 26 := by omega
    subst ht26
    exact ExecUnityRetry_flaky_stop outs 26 (h 26) (by norm_num)
  | succ k ih =>
    intro t hk ht
    have hle : t ≤ 25 := by omega
    rw [ExecUnityRetry_flaky_retry outs t (h t) hle]
    rw [ih (t + 1) (by omega) (by omega)]

theorem ExecUnityRetry_launches_le (outs : Nat → Attempt) :
    ∀ k t, 26 - t = k → (ExecUnityRetry outs t).2 ≤ k + 1 := by
  intro k
  induction k with
  | zero =>
    intro t hk
    have ht : ¬ t ≤ 25 := by omega
    cases hc : classifyAttempt (outs t) with
    | clean => rw [ExecUnityRetry_clean outs t hc]
    | failed c => rw [ExecUnityRetry_failed outs t c hc]
    | flakyCrash => rw [ExecUnityRetry_flaky_stop outs t hc ht]
  | succ k ih =>
    intro t hk
    cases hc : classifyAttempt (outs t) with
    | clean =>
      rw [ExecUnityRetry_clean outs t hc]
      exact Nat.le_add_left 1 _
    | failed c =>
      rw [ExecUnityRetry_failed outs t c hc]
      exact Nat.le_add_left 1 _
    | flakyCrash =>
      by_cases hle : t ≤ 25
      · have hstep := ExecUnityRetry_flaky_retry outs t hc hle
        have h2 : (ExecUnityRetry outs t).2 = (ExecUnityRetry outs (t + 1)).2 + 1 := by
          rw [hstep]
        rw [h2]
        have := ih (t + 1) (by omega)
        omega
      · rw [ExecUnityRetry_flaky_stop outs t hc hle]
        exact Nat.le_add_left 1 _

theorem ExecUnityRetry_launches_pos (outs : Nat → Attempt) (t : Nat) :
    1 ≤ (ExecUnityRetry outs t).2 := by
  cases hc : classifyAttempt (outs t) with
  | clean =>
    rw [ExecUnityRetry_clean outs t hc]
  | failed c =>
    rw [ExecUnityRetry_failed outs t c hc]
  | flakyCrash =>
    by_cases hle : t ≤ 25
    · have h2 : (ExecUnityRetry outs t).2 = (ExecUnityRetry outs (t + 1)).2 + 1 := by
        rw [ExecUnityRetry_flaky_retry outs t hc hle]
      rw [h2]
      exact Nat.le_add_left 1 _
    · rw [ExecUnityRetry_flaky_stop outs t hc hle]

theorem allFlakyAttempts_classify (n : Nat) :
    classifyAttempt (allFlakyAttempts n) = ExitOutcome.flakyCrash := by
  show classifyAttempt { exitCode := 1, errLines := [oomFingerprint] }
    = ExitOutcome.flakyCrash
  decide

/-- C2 (counterexample): when every launch classifies as FlakyCrash the
legacy retry loop performs 26 launches before raising the exhaustion error,
not the claimed 25: tryCount <= 25 still retries at tryCount = 25, so the
26th launch happens and the error is raised only there. -/
theorem retry_bound_counterexample :
    ExecUnityRetry allFlakyAttempts 1 = (RunResult.flakyTooMany, 26) ∧
    (ExecUnityRetry allFlakyAttempts 1).2 ≠ 25 := by
  have h := ExecUnityRetry_allFlaky allFlakyAttempts allFlakyAttempts_classify 25 1 rfl
    (by norm_num)
  exact ⟨h, by rw [h]; decide⟩

/-- C2 (amended): for every run in which all attempts classify as
FlakyCrash, the retry controller launches exactly 26 times and then
terminates with the retry-exhaustion error; moreover no run from a fresh
start ever exceeds 26 launches. -/
theorem retry_bound (outs : Nat → Attempt)
    (h : ∀ n, classifyAttempt (outs n) = ExitOutcome.flakyCrash) :
    ExecUnityRetry outs 1 = (RunResult.flakyTooMany, 26) ∧
    ∀ outs2 : Nat → Attempt, (ExecUnityRetry outs2 1).2 ≤ 26 := by
  refine ⟨ExecUnityRetry_allFlaky outs h 25 1 rfl (by norm_num), ?_⟩
  intro outs2
  exact ExecUnityRetry_launches_le outs2 25 1 rfl

/-- Concrete all-flaky run exercising the amended C2. -/
theorem retry_bound_witness :
    ExecUnityRetry allFlakyAttempts 1 = (RunResult.flakyTooMany, 26) ∧
    ∀ outs2 : Nat → Attempt, (ExecUnityRetry outs2 1).2 ≤ 26 :=
  retry_bound allFlakyAttempts allFlakyAttempts_classify

/-- C3 (counterexample): a run whose first launch exits 0 while a streamed
stderr line carries the out-of-memory fingerprint is classified FlakyCrash,
not Clean, and a retry is performed: the flaky flag is consulted before the
exit code, so the run takes 2 launches instead of 1. -/
theorem clean_exit_counterexample :
    classifyAttempt { exitCode := 0, errLines := [oomFingerprint] }
        = ExitOutcome.flakyCrash ∧
    ExitOutcome.flakyCrash ≠ ExitOutcome.clean ∧
    (ExecUnityRetry cleanFlakyLineAttempts 1).2 = 2 := by
  refine ⟨by decide, by decide, ?_⟩
  have h1 : classifyAttempt (cleanFlakyLineAttempts 1) = ExitOutcome.flakyCrash := by
    show classifyAttempt { exitCode := 0, errLines := [oomFingerprint] }
      = ExitOutcome.flakyCrash
    decide
  have h2 : classifyAttempt (cleanFlakyLineAttempts (1 + 1)) = ExitOutcome.clean := by
    show classifyAttempt { exitCode := 0, errLines := [] } = ExitOutcome.clean
    decide
  have hstep : (ExecUnityRetry cleanFlakyLineAttempts 1).2
      = (ExecUnityRetry cleanFlakyLineAttempts (1 + 1)).2 + 1 := by
    rw [ExecUnityRetry_flaky_retry cleanFlakyLineAttempts 1 h1 (by norm_num)]
  rw [hstep, ExecUnityRetry_clean cleanFlakyLineAttempts (1 + 1) h2]

/-- C3 (amended): a run whose first launch exits 0 and streams no line
containing a flaky fingerprint succeeds with a single launch and no error;
when a fingerprint is streamed, the run is instead classified FlakyCrash and
retried even though the exit code is 0. -/
theorem clean_exit_classification (outs : Nat → Attempt)
    (h0 : (outs 1).exitCode = 0)
    (h1 : ∀ l ∈ streamedLines (outs 1).errLines, containsFingerprint l = false) :
    ExecUnityRetry outs 1 = (RunResult.success, 1) := by
  have hfl : flakyOf (outs 1).errLines = false := by
    rw [flakyOf_eq_any, List.any_eq_false]
    intro x hx
    simp [h1 x hx]
  have hc : classifyAttempt (outs 1) = ExitOutcome.clean := by
    unfold classifyAttempt
    rw [hfl, h0]
    simp
  exact ExecUnityRetry_clean outs 1 hc

/-- Concrete fingerprint-free clean run exercising the amended C3. -/
theorem clean_exit_classification_witness :
    ExecUnityRetry cleanRunAttempts 1 = (RunResult.success, 1) :=
  clean_exit_classification cleanRunAttempts (by decide) (by decide)

/-- C4: for a run whose first launch exits nonzero, a streamed stderr line
containing one of the two fixed fingerprints forces classification
FlakyCrash and a retry (a second launch happens); with no fingerprint among
the streamed lines the classification is Failed carrying the exit code and
the error is raised immediately, after exactly one launch. -/
theorem nonzero_exit_classification (outs : Nat → Attempt)
    (hcode : (outs 1).exitCode ≠ 0) :
    ((∃ l ∈ streamedLines (outs 1).errLines, containsFingerprint l = true) →
      classifyAttempt (outs 1) = ExitOutcome.flakyCrash ∧
      2 ≤ (ExecUnityRetry outs 1).2) ∧
    ((∀ l ∈ streamedLines (outs 1).errLines, containsFingerprint l = false) →
      classifyAttempt (outs 1) = ExitOutcome.failed (outs 1).exitCode ∧
      ExecUnityRetry outs 1 = (RunResult.failedExit (outs 1).exitCode, 1)) := by
  constructor
  · intro hex
    have hfl : flakyOf (outs 1).errLines = true := by
      rw [flakyOf_eq_any, List.any_eq_true]
      exact hex
    have hc : classifyAttempt (outs 1) = ExitOutcome.flakyCrash := by
      unfold classifyAttempt
      rw [hfl]
      simp
    refine ⟨hc, ?_⟩
    have h2 : (ExecUnityRetry outs 1).2 = (ExecUnityRetry outs (1 + 1)).2 + 1 := by
      rw [ExecUnityRetry_flaky_retry outs 1 hc (by norm_num)]
    rw [h2]
    have := ExecUnityRetry_launches_pos outs (1 + 1)
    omega
  · intro hall
    have hfl : flakyOf (outs 1).errLines = false := by
      rw [flakyOf_eq_any, List.any_eq_false]
      intro x hx
      simp [hall x hx]
    have hc : classifyAttempt (outs 1) = ExitOutcome.failed (outs 1).exitCode := by
      unfold classifyAttempt
      rw [hfl]
      rw [if_neg (by simp)]
      rw [if_pos hcode]
    exact ⟨hc, ExecUnityRetry_failed outs 1 _ hc⟩

/-- Concrete runs exercising both branches of C4: one nonzero exit with the
overflow fingerprint streamed, one nonzero exit with unremarkable output. -/
theorem nonzero_exit_classification_witness :
    (classifyAttempt (overflowLineAttempts 1) = ExitOutcome.flakyCrash ∧
      2 ≤ (ExecUnityRetry overflowLineAttempts 1).2) ∧
    (classifyAttempt (plainFailureAttempts 1)
        = ExitOutcome.failed (plainFailureAttempts 1).exitCode ∧
      ExecUnityRetry plainFailureAttempts 1
        = (RunResult.failedExit (plainFailureAttempts 1).exitCode, 1)) :=
  ⟨(nonzero_exit_classification overflowLineAttempts (by decide)).1
      ⟨overflowFingerprint, by decide, by decide⟩,
    (nonzero_exit_classification plainFailureAttempts (by decide)).2 (by decide)⟩

/-- C6: killing a dead PID (ESRCH) raises no visible error; whenever the
lock file existed and could be opened it is deleted afterwards regardless of
the kill outcome and the recorded PID is returned; with no lock file the
function returns null and stays silent. -/
theorem tryKillPid_contract (content : Option Nat) (openOk : Bool)
    (kill : Nat → KillOutcome) :
    (∀ p, content = some p → kill p = KillOutcome.esrch →
      (tryKillPid content openOk kill).visibleError = false) ∧
    (∀ p, content = some p → openOk = true →
      (tryKillPid content openOk kill).fsAfter = none ∧
      (tryKillPid content openOk kill).ret = some p) ∧
    (content = none →
      (tryKillPid content openOk kill).ret = none ∧
      (tryKillPid content openOk kill).visibleError = false) := by
  refine ⟨?_, ?_, ?_⟩
  · intro p hp hk
    subst hp
    cases openOk with
    | true =>
      show decide (kill p = KillOutcome.other) = false
      rw [hk]
      decide
    | false => rfl
  · intro p hp ho
    subst hp
    subst ho
    exact ⟨rfl, rfl⟩
  · intro hc
    subst hc
    exact ⟨rfl, rfl⟩

/-- Concrete instances of the three C6 cases: a dead PID behind an openable
lock, and the no-lock-file case. -/
theorem tryKillPid_contract_witness :
    (tryKillPid (some 41) true (fun _ => KillOutcome.esrch)).visibleError = false ∧
    ((tryKillPid (some 41) true (fun _ => KillOutcome.esrch)).fsAfter = none ∧
      (tryKillPid (some 41) true (fun _ => KillOutcome.esrch)).ret = some 41) ∧
    ((tryKillPid none true (fun _ => KillOutcome.esrch)).ret = none ∧
      (tryKillPid none true (fun _ => KillOutcome.esrch)).visibleError = false) :=
  ⟨(tryKillPid_contract (some 41) true (fun _ => KillOutcome.esrch)).1 41 rfl rfl,
    (tryKillPid_contract (some 41) true (fun _ => KillOutcome.esrch)).2.1 41 rfl rfl,
    (tryKillPid_contract none true (fun _ => KillOutcome.esrch)).2.2 rfl⟩

/-- C5: when cancellation is delivered (the signal handler ran) before
cleanup, ExecUnity returns without raising any error whatever exec produced,
including a nonzero exit code or a thrown launch error, and the lock file is
absent afterwards, deleted by the cancellation handler. -/
theorem ExecUnity_cancelled (execRes : Except String Int) (lock : Option Nat)
    (kill : Nat → KillOutcome) (openOk : Bool)
    (hopen : openOk = true) :
    ExecUnity true execRes lock openOk kill
      = { thrown := none, lockAfter := none } := by
  subst hopen
  cases lock with
  | none => rfl
  | some p => rfl

/-- Concrete cancelled run with a nonzero exit code exercising C5. -/
theorem ExecUnity_cancelled_witness :
    ExecUnity true (Except.ok 9) (some 123) true (fun _ => KillOutcome.ok)
      = { thrown := none, lockAfter := none } :=
  ExecUnity_cancelled (Except.ok 9) (some 123) (fun _ => KillOutcome.ok) true rfl

/-- C7: with a stale lock file present (and accessible), the stale PID's
termination is attempted before the new PID is written, and for every
filesystem state the lock file afterwards records exactly the newly
launched PID. -/
theorem execLockPhase_stale_then_write (newPid : Nat) :
    (∀ stale kill, execLockPhase (some (some stale)) true true kill newPid
      = ([ExecEvent.killStale stale, ExecEvent.writeLock newPid],
          some (some newPid))) ∧
    (∀ dirState accessOk openOk kill,
      (execLockPhase dirState accessOk openOk kill newPid).2
        = some (some newPid)) := by
  constructor
  · intro stale kill
    rfl
  · intro dirState accessOk openOk kill
    match dirState with
    | none => rfl
    | some none => rfl
    | some (some stale) =>
      cases accessOk with
      | true => rfl
      | false => rfl

/-- Concrete stale-lock launch exercising C7. -/
theorem execLockPhase_stale_then_write_witness :
    execLockPhase (some (some 55)) true true (fun _ => KillOutcome.ok) 77
      = ([ExecEvent.killStale 55, ExecEvent.writeLock 77], some (some 77)) ∧
    (execLockPhase (some none) true true (fun _ => KillOutcome.ok) 77).2
      = some (some 77) :=
  ⟨(execLockPhase_stale_then_write 77).1 55 (fun _ => KillOutcome.ok),
    (execLockPhase_stale_then_write 77).2 (some none) true true
      (fun _ => KillOutcome.ok)⟩

theorem jsIndexOf_eq_neg_one_of_not_mem (value : String) :
    ∀ args : List String, value ∉ args → jsIndexOf value args = -1 := by
  intro args
  induction args with
  | nil => intro _; rfl
  | cons a rest ih =>
    intro h
    have ha : ¬ a = value := by
      intro he
      subst he
      exact h (List.mem_cons_self a rest)
    have hr : value ∉ rest := fun hm => h (List.mem_cons_of_mem a hm)
    unfold jsIndexOf
    rw [if_neg ha, ih hr]
    simp

theorem jsIndexOf_append (value : String) (r : List String) :
    ∀ l : List String, value ∉ l →
      jsIndexOf value (l ++ value :: r) = (l.length : Int) := by
  intro l
  induction l with
  | nil =>
    intro _
    show jsIndexOf value (value :: r) = 0
    unfold jsIndexOf
    rw [if_pos rfl]
  | cons a rest ih =>
    intro h
    have ha : ¬ a = value := by
      intro he
      subst he
      exact h (List.mem_cons_self a rest)
    have hr : value ∉ rest := fun hm => h (List.mem_cons_of_mem a hm)
    show jsIndexOf value (a :: (rest ++ value :: r)) = ((a :: rest).length : Int)
    unfold jsIndexOf
    rw [if_neg ha, ih hr]
    have hne : (rest.length : Int) ≠ -1 := by omega
    rw [if_neg hne]
    push_cast [List.length_cons]
    ring

theorem getArgumentValue_missing (args : List String)
    (h : "-logFile" ∉ args) :
    getArgumentValue "-logFile" args
      = Except.error "Missing -logFile argument" := by
  unfold getArgumentValue
  rw [jsIndexOf_eq_neg_one_of_not_mem "-logFile" args h]
  rw [if_pos (Or.inl rfl)]
  rfl

theorem getArgumentValue_flag_last (l : List String)
    (h : "-logFile" ∉ l) :
    getArgumentValue "-logFile" (l ++ ["-logFile"])
      = Except.error "Missing -logFile argument" := by
  unfold getArgumentValue
  rw [jsIndexOf_append "-logFile" [] l h]
  rw [if_pos (Or.inr (by
    rw [List.length_append, List.length_cons, List.length_nil]
    push_cast
    ring))]
  rfl

theorem getArgumentValue_found (l r : List String) (v : String)
    (h : "-logFile" ∉ l) :
    getArgumentValue "-logFile" (l ++ "-logFile" :: v :: r)
      = Except.ok v := by
  unfold getArgumentValue
  rw [jsIndexOf_append "-logFile" (v :: r) l h]
  have hcond : ¬ ((l.length : Int) = -1 ∨
      (l.length : Int) = ((l ++ "-logFile" :: v :: r).length : Int) - 1) := by
    intro hor
    rcases hor with h1 | h2
    · omega
    · rw [List.length_append, List.length_cons, List.length_cons] at h2
      push_cast at h2
      omega
  rw [if_neg hcond]
  have ht : ((l.length : Int)).toNat = l.length := Int.toNat_natCast l.length
  rw [ht, List.getD_eq_getElem?_getD,
    List.getElem?_append_right (by omega : l.length ≤ l.length + 1)]
  have h1 : l.length + 1 - l.length = 1 := by omega
  rw [h1]
  simp

/-- C9: when the -logFile flag is absent, or present only as the final
element with no following value, the run fails with the error
Missing -logFile argument before the spawn is reached; when the flag is
followed by a non-empty value, that value is returned unchanged and exec
proceeds to spawn with it. -/
theorem getArgumentValue_logFile (args l r : List String) (v : String) :
    ("-logFile" ∉ args →
      execStart args = Except.error "Missing -logFile argument") ∧
    ("-logFile" ∉ l → args = l ++ ["-logFile"] →
      execStart args = Except.error "Missing -logFile argument") ∧
    ("-logFile" ∉ l → v ≠ "" → args = l ++ "-logFile" :: v :: r →
      getArgumentValue "-logFile" args = Except.ok v ∧
      execStart args = Except.ok v) := by
  refine ⟨?_, ?_, ?_⟩
  · intro h
    unfold execStart
    rw [getArgumentValue_missing args h]
  · intro h he
    subst he
    unfold execStart
    rw [getArgumentValue_flag_last l h]
  · intro h hv he
    subst he
    have hg := getArgumentValue_found l r v h
    refine ⟨hg, ?_⟩
    unfold execStart
    rw [hg]
    show (if v = "" then
        Except.error "Log file path not specified in command arguments"
      else Except.ok v) = Except.ok v
    rw [if_neg hv]

/-- Concrete argument vectors exercising the three C9 cases. -/
theorem getArgumentValue_logFile_witness :
    execStart ["-batchmode"] = Except.error "Missing -logFile argument" ∧
    execStart ["-batchmode", "-logFile"]
      = Except.error "Missing -logFile argument" ∧
    (getArgumentValue "-logFile" ["-batchmode", "-logFile", "log.txt"]
        = Except.ok "log.txt" ∧
      execStart ["-batchmode", "-logFile", "log.txt"] = Except.ok "log.txt") :=
  ⟨(getArgumentValue_logFile ["-batchmode"] [] [] "x").1 (by decide),
    (getArgumentValue_logFile ["-batchmode", "-logFile"] ["-batchmode"] []
        "x").2.1 (by decide) rfl,
    (getArgumentValue_logFile ["-batchmode", "-logFile", "log.txt"]
        ["-batchmode"] [] "log.txt").2.2 (by decide) (by decide) rfl⟩

theorem listProcessesUnixBody_eq (stdout : String) :
    listProcessesUnixBody stdout
      = (parsePsRecords stdout).filter (fun p => filterSystem p.name) := by
  unfold listProcessesUnixBody parsePsRecords
  generalize (((splitLinesCr stdout).drop 1).filter
    (fun l => !(jsTrimList l).isEmpty)) = lines
  induction lines with
  | nil => rfl
  | cons a rest ih =>
    simp only [List.filterMap_cons]
    cases hf : parsePsLine a with
    | none => simpa using ih
    | some b =>
      cases hq : filterSystem b.name with
      | true => simp [hq, List.filter_cons, ih]
      | false => simp [hq, List.filter_cons, ih]

theorem sysNames_lower_ne_nil :
    ∀ s ∈ systemProcessNames, (jsToLower s).data ≠ [] := by decide

theorem jsIncludes_lower_empty (t : String) (h : (jsToLower t).data ≠ []) :
    jsIncludes (jsToLower "") (jsToLower t) = false := by
  have h0 : (jsToLower "").data = [] := rfl
  unfold jsIncludes
  rw [h0]
  cases hd : (jsToLower t).data with
  | nil => exact absurd hd h
  | cons c cs => rfl

theorem filterSystem_eq_true_iff (name : String) :
    filterSystem name = true ↔
      ∀ sysName ∈ systemProcessNames,
        jsIncludes (jsToLower name) (jsToLower sysName) = false := by
  unfold filterSystem
  rw [Bool.not_eq_true', List.any_eq_false]
  constructor
  · intro h s hs
    have h2 := h s hs
    by_cases hn : name = ""
    · subst hn
      exact jsIncludes_lower_empty s (sysNames_lower_ne_nil s hs)
    · have hne : (name != "") = true := by
        simp [bne_iff_ne, hn]
      simp only [hne, Bool.true_and] at h2
      exact Bool.eq_false_iff.mpr h2
  · intro h s hs
    have h2 := h s hs
    intro hcontra
    rw [Bool.and_eq_true] at hcontra
    rw [h2] at hcontra
    exact Bool.false_ne_true hcontra.2

/-- C8: a process is a kill target of the orphan reaper over the unix
enumeration exactly when it was parsed from the enumeration output, its
ppid equals the exited parent's pid, and its name contains no deny-listed
system process name as a case-insensitive substring. -/
theorem orphan_reaper_targets (stdout : String) (parent : ProcInfo)
    (p : ProcInfo) :
    p ∈ cleanupTargets parent (listProcessesUnixBody stdout) ↔
      (p ∈ parsePsRecords stdout ∧ p.ppid = parent.pid ∧
        ∀ sysName ∈ systemProcessNames,
          jsIncludes (jsToLower p.name) (jsToLower sysName) = false) := by
  unfold cleanupTargets
  rw [List.mem_filter, listProcessesUnixBody_eq, List.mem_filter]
  constructor
  · rintro ⟨⟨hmem, hfs⟩, hppid⟩
    exact ⟨hmem, beq_iff_eq.mp hppid,
      (filterSystem_eq_true_iff p.name).mp hfs⟩
  · rintro ⟨hmem, hppid, hincl⟩
    exact ⟨⟨hmem, (filterSystem_eq_true_iff p.name).mpr hincl⟩,
      beq_iff_eq.mpr hppid⟩

/-- A synthetic enumeration with one matching non-system process and one
matching system-named process: only the non-system one is targeted. -/
theorem orphan_reaper_targets_witness :
    (⟨100, 42, "Unity"⟩ : ProcInfo) ∈ cleanupTargets ⟨42, 1, "runner"⟩
      (listProcessesUnixBody "PID PPID COMMAND\n100 42 Unity\n101 42 svchost.exe") ∧
    (⟨101, 42, "svchost.exe"⟩ : ProcInfo) ∉ cleanupTargets ⟨42, 1, "runner"⟩
      (listProcessesUnixBody "PID PPID COMMAND\n100 42 Unity\n101 42 svchost.exe") :=
  ⟨(orphan_reaper_targets _ _ _).mpr (by decide),
    fun h => absurd ((orphan_reaper_targets _ _ _).mp h) (by decide)⟩

theorem reapOne_ok (kill : Nat → KillOutcome) (p : ProcInfo) :
    reapOne kill p = Except.ok (reapLogOf kill p) := by
  unfold reapOne reapLogOf
  cases kill p.pid <;> rfl

theorem cleanupLoop_ok (kill : Nat → KillOutcome) (parentPid : Nat) :
    ∀ procs : List ProcInfo,
      cleanupLoop kill parentPid procs
        = Except.ok ((procs.filter (fun p => p.ppid == parentPid)).map
            (reapLogOf kill)) := by
  intro procs
  induction procs with
  | nil => rfl
  | cons p rest ih =>
    unfold cleanupLoop
    rw [List.filter_cons]
    cases hp : (p.ppid == parentPid) with
    | true => simp [reapOne_ok, ih]
    | false => simp [ih]

/-- C10: listProcesses never surfaces an error to its caller - for every
outcome of the platform enumeration command it answers with an ok list, the
catch turning any rejection into the empty list and the parsers skipping
malformed lines - and cleanupProcessOrphans always completes with an ok log,
the per-process catch absorbing every kill failure; its log covers exactly
the ppid-matching processes. -/
theorem listProcesses_cleanup_never_throw (isWin32 : Bool)
    (cmdResult : Except String String) (parent : ProcInfo)
    (procs : List ProcInfo) (kill : Nat → KillOutcome) :
    (∃ l, listProcessesE isWin32 cmdResult = Except.ok l) ∧
    cleanupProcessOrphans parent procs kill
      = Except.ok ((cleanupTargets parent procs).map (reapLogOf kill)) := by
  constructor
  · unfold listProcessesE
    cases cmdResult with
    | ok s => exact ⟨_, rfl⟩
    | error e => exact ⟨[], rfl⟩
  · exact cleanupLoop_ok kill parent.pid procs
